import Mathlib

/-!
Verification of the Thermo repository core against its specification.

Part 1 models the Model Integrity Gate
(`backend/app/services/model_loader.py`): checksum verification with
trust-on-first-use pinning, model loading, status reporting and the
startup sequence.

Part 2 models the Batch Ingestion Orchestrator and Batch State Tracker
(`backend/app/api/upload.py`): per-file validation, content-hash
deduplication, sequence numbering, batch status aggregation, access
control and batch deletion.

Machine integers are modelled as `Nat`/`Int`; file bytes as `List Nat`;
the SHA-256 digest function is an explicit parameter `h : List Nat → Nat`
(the claims only compare digests for equality, so every theorem is
universally quantified over the digest function).  Fallible operations
return `Except`.
-/

namespace Thermo

/-- Raw file contents, a sequence of bytes. -/
abbrev ByteString := List Nat

/-- A SHA-256 digest, abstracted to a natural number. -/
abbrev Digest := Nat

/-- Association-list read, the embedding of a Python dict lookup
(first binding of the key wins). -/
def dictGet {α : Type} : List (String × α) → String → Option α
  | [], _ => none
  | (k, v) :: r, k' => if k = k' then some v else dictGet r k'

/-- Association-list write, the embedding of a Python dict assignment:
replaces the first binding of the key, or appends a fresh one. -/
def dictPut {α : Type} : List (String × α) → String → α → List (String × α)
  | [], k, v => [(k, v)]
  | (k0, v0) :: r, k, v => if k0 = k then (k, v) :: r else (k0, v0) :: dictPut r k v

/-- One entry of `ProductionModelLoader.model_config`
(`model_loader.py` lines 46-54): expected filename, pinned checksum
(absent until first verification), version string. -/
structure ModelConfig where
  filename : String
  expected_sha256 : Option Digest
  version : String
deriving DecidableEq, Repr

/-- The metadata persisted by `_save_model_metadata`
(`model_loader.py` lines 93-98 and 235-243). -/
structure SavedMetadata where
  checksum : Digest
  file_size : Nat
  version : String
deriving DecidableEq, Repr

/-- The state owned by `ProductionModelLoader`: the files present in the
models directory, the (mutable) model configuration, the set of loaded
model names, the in-memory `model_metadata`, and the metadata files
written by `_save_model_metadata`. -/
structure LoaderState where
  files : List (String × ByteString)
  model_config : List (String × ModelConfig)
  loaded_models : List String
  mem_metadata : List (String × String)
  saved_metadata : List (String × SavedMetadata)
deriving DecidableEq, Repr

/-- The two exception classes of `model_loader.py`:
`ModelIntegrityError` and `ModelLoadingError`. -/
inductive ModelError
  | integrity (msg : String)
  | loading (msg : String)
deriving DecidableEq, Repr

/-- Embedding of `verify_model_integrity` (`model_loader.py` lines 58-115).
Unknown name or missing file raise `ModelIntegrityError`; with no pinned
checksum the computed digest is pinned and persisted (trust-on-first-use);
with a pinned checksum a mismatch raises `ModelIntegrityError` and a match
returns `True` with the state untouched.  `h` is the SHA-256 function. -/
def verify_model_integrity (h : ByteString → Digest) (st : LoaderState)
    (model_name : String) : Except ModelError (Bool × LoaderState) :=
  match dictGet st.model_config model_name with
  | none => .error (.integrity "Unknown model")
  | some config =>
    match dictGet st.files config.filename with
    | none => .error (.integrity "Model file not found")
    | some content =>
      let calculated := h content
      match config.expected_sha256 with
      | none =>
        let config1 := { config with expected_sha256 := some calculated }
        let md : SavedMetadata :=
          { checksum := calculated, file_size := content.length, version := config.version }
        .ok (true,
          { st with
            model_config := dictPut st.model_config model_name config1,
            saved_metadata := dictPut st.saved_metadata model_name md })
      | some expected =>
        if calculated = expected then .ok (true, st)
        else .error (.integrity "integrity check FAILED")

/-- The in-memory model object produced by `load_yolo_nas_model`: either a
fresh architecture with the local checkpoint's state dict loaded into it,
or the remotely fetched COCO-pretrained weights used as fallback. -/
inductive LoadedModel
  | localCheckpoint (sd : Nat)
  | cocoPretrained
deriving DecidableEq, Repr

/-- The external ML runtime consumed by `load_yolo_nas_model`: whether
`super_gradients` imports, whether `models.get(..., pretrained_weights=None)`
succeeds, the outcome of `torch.load` + `load_state_dict` on given bytes
(`none` models any exception in that inner block), and whether the remote
fetch of COCO weights succeeds. -/
structure MLEnv where
  super_gradients_available : Bool
  models_get_fresh_ok : Bool
  local_checkpoint_load : ByteString → Option Nat
  coco_download_ok : Bool

/-- Set-insert into the key list of a Python dict assignment
`self.loaded_models[name] = model`. -/
def putKey (l : List String) (k : String) : List String :=
  if k ∈ l then l else l ++ [k]

/-- Embedding of `load_yolo_nas_model` (`model_loader.py` lines 117-188).  Verifies
integrity first (integrity errors re-raised as-is, lines 184-186); a
missing `super_gradients` raises `ModelLoadingError`; with the local file
present it builds a fresh model and tries to load the local checkpoint,
falling back to the remote COCO download on any failure of that inner
block (lines 149-157); with no local file it downloads directly
(lines 158-161).  A failed download raises `ModelLoadingError`
(line 181-182). -/
def load_yolo_nas_model (h : ByteString → Digest) (env : MLEnv)
    (st : LoaderState) : Except ModelError (LoadedModel × LoaderState) :=
  let model_name := "yolo_nas_s"
  match verify_model_integrity h st model_name with
  | .error e => .error e
  | .ok (_, st1) =>
    if env.super_gradients_available = false then
      .error (.loading "Required ML libraries not available")
    else
      match dictGet st1.model_config model_name with
      | none => .error (.loading "Failed to load YOLO-NAS model")
      | some config =>
        let finish : LoadedModel → Except ModelError (LoadedModel × LoaderState) :=
          fun m => .ok (m,
            { st1 with
              mem_metadata := dictPut st1.mem_metadata model_name "loaded",
              loaded_models := putKey st1.loaded_models model_name })
        match dictGet st1.files config.filename with
        | some content =>
          if env.models_get_fresh_ok = false then
            .error (.loading "Failed to load YOLO-NAS model")
          else
            match env.local_checkpoint_load content with
            | some sd => finish (.localCheckpoint sd)
            | none =>
              if env.coco_download_ok then finish .cocoPretrained
              else .error (.loading "Failed to load YOLO-NAS model")
        | none =>
          if env.coco_download_ok then finish .cocoPretrained
          else .error (.loading "Failed to load YOLO-NAS model")

/-- Embedding of `initialize_all_models` (`model_loader.py` lines 263-292): loads the
YOLO-NAS model, re-raising `ModelIntegrityError` and `ModelLoadingError`
(lines 286-289), and returns `True` on success.  (The `yolo_model is None`
check cannot fire in this model, since a successful load always produces a
model object.) -/
def init_all_models (h : ByteString → Digest) (env : MLEnv)
    (st : LoaderState) : Except ModelError (Bool × LoaderState) :=
  match load_yolo_nas_model h env st with
  | .error e => .error e
  | .ok (_, st1) => .ok (true, st1)

/-- Per-artifact entry of the status report
(`model_loader.py` lines 208-214), with the size in bytes. -/
structure ArtifactStatus where
  file_exists : Bool
  file_size : Nat
  version : String
  loaded : Bool
  integrity_verified : Bool
deriving DecidableEq, Repr

/-- The report returned by `get_model_status`
(`model_loader.py` lines 197-233). -/
structure StatusReport where
  models_available : List (String × ArtifactStatus)
  loaded_models : List String
  integrity_status : String
deriving DecidableEq, Repr

/-- One iteration of the `get_model_status` loop
(`model_loader.py` lines 205-224): reports existence, size, version and
loaded flag, and — when the file exists — runs `verify_model_integrity`,
whose state changes (first-run pinning) persist in the loader. -/
def status_one (h : ByteString → Digest) (st : LoaderState)
    (model_name : String) (config : ModelConfig) :
    ArtifactStatus × LoaderState :=
  let entry : ArtifactStatus :=
    { file_exists := (dictGet st.files config.filename).isSome,
      file_size := (dictGet st.files config.filename).elim 0 List.length,
      version := config.version,
      loaded := model_name ∈ st.loaded_models,
      integrity_verified := false }
  if (dictGet st.files config.filename).isSome then
    match verify_model_integrity h st model_name with
    | .ok (_, st1) => ({ entry with integrity_verified := true }, st1)
    | .error _ => (entry, st)
  else (entry, st)

/-- The `get_model_status` loop over the configured artifacts, threading
the loader state through each (possibly pinning) verification. -/
def status_fold (h : ByteString → Digest) :
    LoaderState → List (String × ModelConfig) →
    List (String × ArtifactStatus) × LoaderState
  | st, [] => ([], st)
  | st, (n, config) :: rest =>
    let (entry, st1) := status_one h st n config
    let (entries, st2) := status_fold h st1 rest
    ((n, entry) :: entries, st2)

/-- Embedding of `get_model_status` (`model_loader.py` lines 190-233).  The overall
`integrity_status` is `"verified"` exactly when every artifact whose file
exists has `integrity_verified` (lines 226-231) — a conjunction over the
file-existing artifacts only. -/
def get_model_status (h : ByteString → Digest) (st : LoaderState) :
    StatusReport × LoaderState :=
  let (avail, st1) := status_fold h st st.model_config
  let all_verified :=
    avail.all (fun e => !e.2.file_exists || e.2.integrity_verified)
  ({ models_available := avail,
     loaded_models := st.loaded_models,
     integrity_status := if all_verified then "verified" else "failed" }, st1)

/-! ## Batch ingestion and tracking (`backend/app/api/upload.py`) -/

/-- An uploaded file as seen by the endpoint: its client filename and its
raw bytes (reading the bytes is modelled as already done). -/
structure UFile where
  filename : String
  content : ByteString
deriving DecidableEq, Repr

/-- The requester, with the fields of `app.models.user.User` consumed by
`upload.py`: primary key, username, and the blanket view privilege
`can_view_all_data`. -/
structure User where
  id : Nat
  username : String
  can_view_all_data : Bool
deriving DecidableEq, Repr

/-- A substation row as consumed by `upload.py` line 79: primary key,
coordinates (scaled integers) and the active flag. -/
structure Substation where
  id : Nat
  latitude : Int
  longitude : Int
  is_active : Bool
deriving DecidableEq, Repr

/-- One `ThermalScan` row, with the columns `upload.py` reads or writes
(lines 131-152, 206-293).  Modelled from the spec where the model class is
not under `src/`: §4.2 step 4 fixes the defaults `processing_status =
"pending"` and a creation timestamp; §3 lists the columns.  Timestamps are
integers (seconds). -/
structure ThermalScan where
  id : Nat
  original_filename : String
  file_path : String
  file_size_bytes : Nat
  file_hash : Digest
  batch_id : String
  batch_sequence : Nat
  substation_id : Option Nat
  uploaded_by : Nat
  ambient_temperature : Int
  notes : Option String
  processing_status : String
  created_at : Int
  processing_completed_at : Option Int
deriving DecidableEq, Repr

/-- The persistent state touched by the upload endpoints: the scan rows,
the autoincrement counter, the batch-scoped stored files
(batch id, path, bytes), and the substation table. -/
structure SysState where
  scans : List ThermalScan
  next_id : Nat
  stored_files : List (String × String × ByteString)
  substations : List Substation
deriving DecidableEq, Repr

/-- Configuration consumed by validation (`config.py`:
`ALLOWED_IMAGE_TYPES`, `MAX_FILE_SIZE`). -/
structure ValidationConfig where
  allowed_image_types : List String
  max_file_size : Nat
deriving DecidableEq, Repr

/-- Image metadata as consumed by `upload.py` lines 119-128: the optional
GPS coordinates (scaled integers).  Other extracted fields do not affect
any claim and are elided. -/
structure ImageMeta where
  gps : Option (Int × Int)
deriving DecidableEq, Repr

/-- The collaborators consumed by the upload endpoint.  Modelled from the
spec where `thermal_processor` is not under `src/`: the content digest
function (§4.1, a pure deterministic function of the bytes), the
file-storage provider (§6) which may fail per file (§7), the metadata
extractor (§4.2 step 3) which may fail per file, the substation matcher
(§4.3, a pure function of its inputs), the allocated batch identifier, and
the clock. -/
structure UploadEnv where
  validation : ValidationConfig
  fhash : ByteString → Digest
  save_ok : String → String → ByteString → Bool
  extract_metadata : ByteString → Except String ImageMeta
  find_matching_substation : Int → Int → List Substation → Option Nat
  create_batch_id : String
  now : Int

/-- Python's `str.endswith` on the character lists of the two strings:
`post` equals the last `post.length` characters of `s`. -/
def strEndsWith (s post : String) : Bool :=
  decide (post.data = s.data.drop (s.data.length - post.data.length))

/-- Modelled from the spec: `thermal_processor.validate_image_file` is not
under `src/`; §4.2 step 1 says validation checks the filename's extension
against an allow-list and the size against a maximum, reporting a validity
flag and a reason. -/
def validate_image_file (cfg : ValidationConfig) (filename : String)
    (file_size : Nat) : Bool × String :=
  if cfg.allowed_image_types.any (fun ext => strEndsWith filename ext) = false then
    (false, "Unsupported file type")
  else if cfg.max_file_size < file_size then
    (false, "File too large")
  else (true, "valid")

/-- Modelled from the spec: `thermal_processor.save_uploaded_file` is not
under `src/`; §4.2 step 3 and §6 describe a provider persisting the bytes
to batch-scoped storage and returning the path; §7 allows per-file storage
errors, decided here by `env.save_ok`. -/
def save_uploaded_file (env : UploadEnv) (st : SysState) (content : ByteString)
    (filename batch_id : String) : Except String (String × SysState) :=
  if env.save_ok batch_id filename content then
    let path := batch_id ++ "/" ++ filename
    .ok (path, { st with stored_files := st.stored_files ++ [(batch_id, path, content)] })
  else .error "storage failure"

/-- Per-file outcome entry (`FileUploadStatus` in `upload.py`
lines 34-38). -/
structure FileResult where
  filename : String
  status : String
  message : String
  thermal_scan_id : Option Nat
deriving DecidableEq, Repr

/-- One iteration of the upload loop (`upload.py` lines 83-173) on one
file: validate; on failure record a `failed` outcome (lines 91-98); look
up the content hash among all existing scans and record `skipped` with the
existing row's id on a duplicate (lines 100-113); otherwise store the
file, extract metadata, match a substation, and commit a new `pending` row
with the running sequence number (lines 115-164).  Any error raised by
storage or metadata extraction is caught and recorded as a `failed`
outcome (lines 166-173).  Returns the new state, the outcome entry, and
the increments of the successful/failed counters. -/
def process_one (env : UploadEnv) (user : User) (batch_id : String)
    (ambient : Int) (notes : Option String) (substations : List Substation)
    (seq : Nat) (st : SysState) (f : UFile) :
    SysState × FileResult × Nat × Nat :=
  let file_size := f.content.length
  let v := validate_image_file env.validation f.filename file_size
  if v.1 = false then
    (st, ⟨f.filename, "failed", v.2, none⟩, 0, 1)
  else
    let file_hash := env.fhash f.content
    match st.scans.find? (fun s => decide (s.file_hash = file_hash)) with
    | some existing =>
      (st, ⟨f.filename, "skipped", "Duplicate file already processed",
            some existing.id⟩, 0, 0)
    | none =>
      match save_uploaded_file env st f.content f.filename batch_id with
      | .error e =>
        (st, ⟨f.filename, "failed", "Processing error: " ++ e, none⟩, 0, 1)
      | .ok (path, st1) =>
        match env.extract_metadata f.content with
        | .error e =>
          (st1, ⟨f.filename, "failed", "Processing error: " ++ e, none⟩, 0, 1)
        | .ok md =>
          let substation_id :=
            match md.gps with
            | some (la, lo) => env.find_matching_substation la lo substations
            | none => none
          let scan : ThermalScan :=
            { id := st1.next_id,
              original_filename := f.filename,
              file_path := path,
              file_size_bytes := file_size,
              file_hash := file_hash,
              batch_id := batch_id,
              batch_sequence := seq,
              substation_id := substation_id,
              uploaded_by := user.id,
              ambient_temperature := ambient,
              notes := notes,
              processing_status := "pending",
              created_at := env.now,
              processing_completed_at := none }
          let st2 := { st1 with scans := st1.scans ++ [scan],
                                next_id := st1.next_id + 1 }
          (st2, ⟨f.filename, "uploaded",
                 "Successfully uploaded and queued for processing",
                 some scan.id⟩, 1, 0)

/-- The upload loop (`for sequence, file in enumerate(files, 1)`,
`upload.py` line 83): the running counter `seq` advances by one for every
iterated file, whatever its outcome; each file's commit is visible to the
duplicate lookup of the following files.  Returns the final state, the
successful and failed counts, and the outcome entries in order. -/
def process_files (env : UploadEnv) (user : User) (batch_id : String)
    (ambient : Int) (notes : Option String) (substations : List Substation) :
    Nat → SysState → List UFile → SysState × Nat × Nat × List FileResult
  | _, st, [] => (st, 0, 0, [])
  | seq, st, f :: rest =>
    let r := process_one env user batch_id ambient notes substations seq st f
    let out := process_files env user batch_id ambient notes substations
      (seq + 1) r.1 rest
    (out.1, r.2.2.1 + out.2.1, r.2.2.2 + out.2.2.1, r.2.1 :: out.2.2.2)

/-- An `HTTPException`: status code and detail. -/
structure HttpError where
  status_code : Nat
  detail : String
deriving DecidableEq, Repr

/-- The endpoint's success payload (`UploadResponse`, `upload.py`
lines 26-32 and 188-195). -/
structure UploadResponse where
  batch_id : String
  total_files : Nat
  successful_uploads : Nat
  failed_uploads : Nat
  processing_status : String
deriving DecidableEq, Repr

/-- Embedding of `upload_thermal_images` (`upload.py` lines 49-195).  An empty file
list and a file count above 5000 are rejected with a 400 before any
processing (lines 59-70); otherwise a batch id is allocated, the active
substations are read, the loop runs with the counter starting at 1, and
the summary reports `queued` when at least one file succeeded, else
`idle` (lines 175-195).  Returns the response (or error) together with
the resulting persistent state. -/
def upload_thermal_images (env : UploadEnv) (st : SysState)
    (files : List UFile) (user : User) (ambient : Int) (notes : Option String) :
    (Except HttpError (UploadResponse × List FileResult)) × SysState :=
  if files.isEmpty then
    (.error ⟨400, "No files provided"⟩, st)
  else if 5000 < files.length then
    (.error ⟨400, "Maximum 5000 files allowed per batch"⟩, st)
  else
    let batch_id := env.create_batch_id
    let substations := st.substations.filter (fun s => s.is_active)
    let out := process_files env user batch_id ambient notes substations 1 st files
    let succ := out.2.1
    let fail := out.2.2.1
    let processing_status := if 0 < succ then "queued" else "idle"
    (.ok ({ batch_id := batch_id, total_files := files.length,
            successful_uploads := succ, failed_uploads := fail,
            processing_status := processing_status }, out.2.2.2), out.1)

/-- Python `min(scans, key=...)`: the first element attaining the
minimum key (later elements replace only on strictly smaller key). -/
def pick_min_by (key : ThermalScan → Int) (x : ThermalScan)
    (xs : List ThermalScan) : ThermalScan :=
  xs.foldl (fun a b => if key b < key a then b else a) x

/-- Python `max(scans, key=...)`: the first element attaining the
maximum key (later elements replace only on strictly greater key). -/
def pick_max_by (key : ThermalScan → Int) (x : ThermalScan)
    (xs : List ThermalScan) : ThermalScan :=
  xs.foldl (fun a b => if key a < key b then b else a) x

/-- The status payload (`BatchStatus`, `upload.py` lines 40-47), with the
processing duration in seconds as an integer. -/
structure BatchStatusR where
  batch_id : String
  total_images : Nat
  processed_images : Nat
  failed_images : Nat
  status : String
  created_at : Int
  processing_duration : Option Int
deriving DecidableEq, Repr

/-- The overall-status chain of `get_batch_status`
(`upload.py` lines 223-240), computed from the per-status counts. -/
def overall_status_of (scans : List ThermalScan) : String :=
  let total_images := scans.length
  let processed_images :=
    (scans.filter (fun s => decide (s.processing_status = "completed"))).length
  let failed_images :=
    (scans.filter (fun s => decide (s.processing_status = "failed"))).length
  let pending_images :=
    (scans.filter (fun s => decide (s.processing_status = "pending"))).length
  let processing_images :=
    (scans.filter (fun s => decide (s.processing_status = "processing"))).length
  if failed_images = total_images then "failed"
  else if processed_images = total_images then "completed"
  else if 0 < processing_images then "processing"
  else if 0 < pending_images then "pending"
  else "unknown"

/-- The processing-duration computation of `get_batch_status`
(`upload.py` lines 242-250): latest `processing_completed_at` among the
rows having one, minus the earliest `created_at` of the batch, absent when
no row has completed. -/
def duration_of (scans : List ThermalScan) : Option Int :=
  match scans with
  | [] => none
  | x :: xs =>
    let first_scan := pick_min_by (fun s => s.created_at) x xs
    match scans.filter (fun s => s.processing_completed_at.isSome) with
    | [] => none
    | y :: ys =>
      let last_completed :=
        pick_max_by (fun s => s.processing_completed_at.getD 0) y ys
      some (last_completed.processing_completed_at.getD 0 - first_scan.created_at)

/-- Embedding of `get_batch_status` (`upload.py` lines 197-260): 404 on an
empty batch; 403 for a requester without `can_view_all_data` none of whose
own uploads is in the batch; otherwise the aggregate counts, the overall
status and the processing duration. -/
def get_batch_status (st : SysState) (batch_id : String) (user : User) :
    Except HttpError BatchStatusR :=
  let scans := st.scans.filter (fun s => decide (s.batch_id = batch_id))
  if scans.isEmpty then .error ⟨404, "Batch not found"⟩
  else if user.can_view_all_data = false ∧
      scans.any (fun s => decide (s.uploaded_by = user.id)) = false then
    .error ⟨403, "Access denied to this batch"⟩
  else
    .ok { batch_id := batch_id,
          total_images := scans.length,
          processed_images :=
            (scans.filter (fun s => decide (s.processing_status = "completed"))).length,
          failed_images :=
            (scans.filter (fun s => decide (s.processing_status = "failed"))).length,
          status := overall_status_of scans,
          created_at := (scans.head?.map (fun s => s.created_at)).getD 0,
          processing_duration := duration_of scans }

/-- Stable insertion into a list sorted by `batch_sequence`. -/
def insertBySeq (x : ThermalScan) : List ThermalScan → List ThermalScan
  | [] => [x]
  | y :: ys =>
    if y.batch_sequence ≤ x.batch_sequence then y :: insertBySeq x ys
    else x :: y :: ys

/-- The stable sort by `batch_sequence` used by `get_batch_files`
(`sorted(scans, key=lambda x: x.batch_sequence)`). -/
def sortBySeq : List ThermalScan → List ThermalScan
  | [] => []
  | x :: xs => insertBySeq x (sortBySeq xs)

/-- Embedding of `get_batch_files` (`upload.py` lines 262-294): the same 404/403 gate
as the status query, then one entry per row ordered by sequence number.
The human-readable processing-time string (`processing_time_str`, not
under `src/`) is modelled as a fixed placeholder; no claim concerns it. -/
def get_batch_files (st : SysState) (batch_id : String) (user : User) :
    Except HttpError (List FileResult) :=
  let scans := st.scans.filter (fun s => decide (s.batch_id = batch_id))
  if scans.isEmpty then .error ⟨404, "Batch not found"⟩
  else if user.can_view_all_data = false ∧
      scans.any (fun s => decide (s.uploaded_by = user.id)) = false then
    .error ⟨403, "Access denied to this batch"⟩
  else
    .ok ((sortBySeq scans).map (fun scan =>
      ⟨scan.original_filename, scan.processing_status,
       "Processing time: unknown", some scan.id⟩))

/-- Embedding of `delete_batch` (`upload.py` lines 296-323): 404 on a batch with zero
rows, leaving the state untouched; otherwise every row of the batch is
deleted and the batch's stored files are cleaned up
(`cleanup_batch_files`, modelled from the spec §4.4 as removing the
batch-scoped files). -/
def delete_batch (st : SysState) (batch_id : String) :
    (Except HttpError String) × SysState :=
  let scans := st.scans.filter (fun s => decide (s.batch_id = batch_id))
  if scans.isEmpty then (.error ⟨404, "Batch not found"⟩, st)
  else
    (.ok ("Batch " ++ batch_id ++ " deleted successfully"),
     { st with
       scans := st.scans.filter (fun s => decide (s.batch_id = batch_id) = false),
       stored_files := st.stored_files.filter (fun t => decide (t.1 = batch_id) = false) })

/-! ## Helper lemmas -/

/-- A successful `dictGet` always returns a binding present in the list. -/
theorem dictGet_mem {α : Type} :
    ∀ (l : List (String × α)) (k : String) (v : α),
      dictGet l k = some v → (k, v) ∈ l := by
  intro l
  induction l with
  | nil => intro k v hv; simp [dictGet] at hv
  | cons p r ih =>
    intro k v hv
    obtain ⟨k0, v0⟩ := p
    by_cases hk : k0 = k
    · simp only [dictGet, if_pos hk] at hv
      cases hv
      subst hk
      exact List.mem_cons_self _ _
    · simp only [dictGet, if_neg hk] at hv
      exact List.mem_cons_of_mem _ (ih k v hv)

/-- If every configured artifact with no pinned checksum has no file on
disk, then a successful verification leaves the loader state unchanged
(there is nothing to pin). -/
theorem verify_no_pin (h : ByteString → Digest) (st : LoaderState)
    (H : ∀ p ∈ st.model_config, p.2.expected_sha256 = none →
      dictGet st.files p.2.filename = none)
    (name : String) :
    ∀ b st', verify_model_integrity h st name = .ok (b, st') → st' = st := by
  intro b st' hv
  unfold verify_model_integrity at hv
  cases hc : dictGet st.model_config name with
  | none => simp [hc] at hv
  | some config =>
    simp only [hc] at hv
    cases hf : dictGet st.files config.filename with
    | none => simp [hf] at hv
    | some content =>
      simp only [hf] at hv
      cases he : config.expected_sha256 with
      | none =>
        have := H (name, config) (dictGet_mem _ _ _ hc) he
        rw [this] at hf
        cases hf
      | some expected =>
        simp only [he] at hv
        by_cases heq : h content = expected
        · simp only [if_pos heq, Except.ok.injEq, Prod.mk.injEq] at hv
          exact hv.2.symm
        · simp [if_neg heq] at hv

/-- Under the same hypothesis, one status-loop iteration leaves the
loader state unchanged. -/
theorem status_one_frame (h : ByteString → Digest) (st : LoaderState)
    (H : ∀ p ∈ st.model_config, p.2.expected_sha256 = none →
      dictGet st.files p.2.filename = none)
    (n : String) (config : ModelConfig) :
    (status_one h st n config).2 = st := by
  unfold status_one
  by_cases hf : (dictGet st.files config.filename).isSome
  · simp only [hf, if_true]
    cases hv : verify_model_integrity h st n with
    | error e => simp
    | ok p =>
      obtain ⟨b, st'⟩ := p
      simpa using verify_no_pin h st H n b st' hv
  · simp [hf]

/-- Under the same hypothesis the whole status loop leaves the state
unchanged and reports one entry per iterated artifact. -/
theorem status_fold_frame (h : ByteString → Digest) (st : LoaderState)
    (H : ∀ p ∈ st.model_config, p.2.expected_sha256 = none →
      dictGet st.files p.2.filename = none) :
    ∀ l, (status_fold h st l).2 = st ∧
      (status_fold h st l).1 = l.map (fun p => (p.1, (status_one h st p.1 p.2).1)) := by
  intro l
  induction l with
  | nil => simp [status_fold]
  | cons p rest ih =>
    obtain ⟨n, config⟩ := p
    have hframe := status_one_frame h st H n config
    simp only [status_fold]
    cases hso : status_one h st n config with
    | mk entry st1 =>
      rw [hso] at hframe
      simp only at hframe
      subst hframe
      simp [ih.1, ih.2, hso]

/-- The status entry of an artifact whose file is missing. -/
theorem status_one_no_file (h : ByteString → Digest) (st : LoaderState)
    (n : String) (config : ModelConfig)
    (hf : dictGet st.files config.filename = none) :
    status_one h st n config =
      ({ file_exists := false, file_size := 0, version := config.version,
         loaded := decide (n ∈ st.loaded_models), integrity_verified := false }, st) := by
  unfold status_one
  simp [hf]

/-! ## Claim theorems: Model Integrity Gate -/

/-- Digest function used by the concrete witnesses: the byte count.  The
claim theorems are universally quantified over the digest function. -/
def hLen : ByteString → Digest := fun c => c.length

/-- A loader state with one configured artifact, no pinned checksum, and
the artifact's two-byte file present on disk. -/
def stW : LoaderState :=
  { files := [("f.pth", [7, 7])],
    model_config :=
      [("m", { filename := "f.pth", expected_sha256 := none, version := "1.0" })],
    loaded_models := [], mem_metadata := [], saved_metadata := [] }

/-- C3.  For every configured model artifact whose file exists on disk:
with no pinned checksum, `verify_model_integrity` computes the file's
SHA-256, pins it as the expected checksum, persists it as metadata and
returns success; with a pinned checksum it returns success (state
untouched) when the file's digest equals the pinned value and raises
`ModelIntegrityError` when it differs.  A missing file or an unconfigured
name raises `ModelIntegrityError`. -/
theorem c3_verify_model_integrity_spec (h : ByteString → Digest)
    (st : LoaderState) (name : String) :
    (dictGet st.model_config name = none →
      ∃ msg, verify_model_integrity h st name = .error (.integrity msg)) ∧
    (∀ config, dictGet st.model_config name = some config →
      dictGet st.files config.filename = none →
      ∃ msg, verify_model_integrity h st name = .error (.integrity msg)) ∧
    (∀ config content, dictGet st.model_config name = some config →
      dictGet st.files config.filename = some content →
      config.expected_sha256 = none →
      verify_model_integrity h st name = .ok (true,
        { st with
          model_config := dictPut st.model_config name
            { config with expected_sha256 := some (h content) },
          saved_metadata := dictPut st.saved_metadata name
            { checksum := h content, file_size := content.length,
              version := config.version } })) ∧
    (∀ config content expected, dictGet st.model_config name = some config →
      dictGet st.files config.filename = some content →
      config.expected_sha256 = some expected →
      ((h content = expected →
        verify_model_integrity h st name = .ok (true, st)) ∧
       (h content ≠ expected →
        ∃ msg, verify_model_integrity h st name = .error (.integrity msg)))) := by
  refine ⟨?_, ?_, ?_, ?_⟩
  · intro hc
    exact ⟨"Unknown model", by simp [verify_model_integrity, hc]⟩
  · intro config hc hf
    exact ⟨"Model file not found", by simp [verify_model_integrity, hc, hf]⟩
  · intro config content hc hf he
    simp [verify_model_integrity, hc, hf, he]
  · intro config content expected hc hf he
    constructor
    · intro heq
      simp [verify_model_integrity, hc, hf, he, heq]
    · intro hne
      exact ⟨"integrity check FAILED",
        by simp [verify_model_integrity, hc, hf, he, hne]⟩

/-- C3 witness: on a fresh artifact with a two-byte file present,
`verify_model_integrity` pins the computed digest and persists it as
metadata. -/
theorem c3_verify_model_integrity_spec_witness :
    dictGet stW.model_config "m" =
      some { filename := "f.pth", expected_sha256 := none, version := "1.0" } ∧
    verify_model_integrity hLen stW "m" = .ok (true,
      { stW with
        model_config := dictPut stW.model_config "m"
          { filename := "f.pth", expected_sha256 := some (hLen [7, 7]),
            version := "1.0" },
        saved_metadata := dictPut stW.saved_metadata "m"
          { checksum := hLen [7, 7], file_size := 2, version := "1.0" } }) :=
  ⟨rfl, (c3_verify_model_integrity_spec hLen stW "m").2.2.1
    { filename := "f.pth", expected_sha256 := none, version := "1.0" }
    [7, 7] rfl rfl rfl⟩

/-- File bytes for the fallback scenario: the pinned digest matches, but
deserialization of these bytes fails. -/
def contentB : ByteString := [1, 2, 3]

/-- Loader state for the fallback scenario: the YOLO artifact's file is
present and its checksum is already pinned to that file's digest, so
integrity verification passes. -/
def stB : LoaderState :=
  { files := [("yolo_nas_s_coco.pth", contentB)],
    model_config := [("yolo_nas_s",
      { filename := "yolo_nas_s_coco.pth",
        expected_sha256 := some (hLen contentB), version := "1.0" })],
    loaded_models := [], mem_metadata := [], saved_metadata := [] }

/-- ML runtime for the fallback scenario: the libraries import and the
remote fetch succeeds, but `torch.load` on the local checkpoint raises. -/
def envB : MLEnv :=
  { super_gradients_available := true, models_get_fresh_ok := true,
    local_checkpoint_load := fun _ => none, coco_download_ok := true }

/-- C1 (failing input): with integrity verification passed and the local
checkpoint's deserialization failing, `load_yolo_nas_model` does not raise
`ModelLoadingError` — it returns the remotely fetched COCO-pretrained
model, which is never re-verified against the pinned checksum, and marks
the artifact loaded. -/
theorem c1_load_falls_back_to_unverified_download :
    envB.local_checkpoint_load contentB = none ∧
    load_yolo_nas_model hLen envB stB = .ok (.cocoPretrained,
      { stB with mem_metadata := [("yolo_nas_s", "loaded")],
                 loaded_models := ["yolo_nas_s"] }) :=
  ⟨rfl, rfl⟩

/-- C2 (failing input): on the same scenario, `initialize_all_models`
returns success rather than propagating the local load failure — the
process comes into service with a remotely fetched model whose integrity
was never confirmed. -/
theorem c2_init_all_models_succeeds_after_load_failure :
    envB.local_checkpoint_load contentB = none ∧
    init_all_models hLen envB stB = .ok (true,
      { stB with mem_metadata := [("yolo_nas_s", "loaded")],
                 loaded_models := ["yolo_nas_s"] }) :=
  ⟨rfl, rfl⟩

/-- C4 counterexample: on a loader state with one configured artifact
whose file exists and whose checksum is not yet pinned, a single
`get_model_status` call changes the pinned-checksum state: the expected
checksum goes from `none` to the freshly pinned digest, so the state after
the call differs from the state before it. -/
theorem c4_get_model_status_pins_counterexample :
    (dictGet stW.model_config "m").map (fun c => c.expected_sha256) =
      some none ∧
    (dictGet (get_model_status hLen stW).2.model_config "m").map
      (fun c => c.expected_sha256) = some (some 2) ∧
    (get_model_status hLen stW).2 ≠ stW := by
  refine ⟨rfl, rfl, ?_⟩
  decide

/-- C4 (amended).  `get_model_status` reports, per configured artifact,
whether its file exists, its size, its version, whether it is loaded and
whether it currently passes integrity verification; and it leaves the
loader state (pinned checksums and persisted metadata included) unchanged
on every state in which no artifact is still awaiting first-run pinning
with its file present — on such an artifact the embedded verification
pins the computed checksum (trust-on-first-use), mutating the state. -/
theorem c4_get_model_status_amended (h : ByteString → Digest)
    (st : LoaderState)
    (H : ∀ p ∈ st.model_config, p.2.expected_sha256 = none →
      dictGet st.files p.2.filename = none) :
    (get_model_status h st).2 = st ∧
    (get_model_status h st).1.models_available =
      st.model_config.map (fun p => (p.1, (status_one h st p.1 p.2).1)) ∧
    (∀ n config, (n, config) ∈ st.model_config →
      (((status_one h st n config).1.file_exists = true) ↔
        (∃ c, dictGet st.files config.filename = some c)) ∧
      (status_one h st n config).1.file_size =
        (dictGet st.files config.filename).elim 0 List.length ∧
      (status_one h st n config).1.version = config.version ∧
      (((status_one h st n config).1.loaded = true) ↔ n ∈ st.loaded_models) ∧
      (((status_one h st n config).1.integrity_verified = true) ↔
        ((dictGet st.files config.filename).isSome = true ∧
         ∃ r, verify_model_integrity h st n = .ok r))) := by
  have hfold := status_fold_frame h st H st.model_config
  refine ⟨?_, ?_, ?_⟩
  · simp [get_model_status, hfold.1]
  · simp [get_model_status, hfold.2]
  · intro n config _
    unfold status_one
    by_cases hf : (dictGet st.files config.filename).isSome
    · obtain ⟨c, hc⟩ := Option.isSome_iff_exists.mp hf
      cases hv : verify_model_integrity h st n with
      | error e => simp [hf, hv, hc]
      | ok p => simp [hf, hv, hc]
    · have hnone : dictGet st.files config.filename = none :=
        Option.not_isSome_iff_eq_none.mp hf
      simp [hf, hnone]

/-- A loader state whose only artifact already has a pinned checksum
(matching its file), used to witness the amended C4. -/
def stP : LoaderState :=
  { files := [("f.pth", [7, 7])],
    model_config :=
      [("m", { filename := "f.pth", expected_sha256 := some 2, version := "1.0" })],
    loaded_models := [], mem_metadata := [], saved_metadata := [] }

/-- C4 witness: on a state where the only artifact is already pinned,
`get_model_status` leaves the loader state unchanged and reports one
entry. -/
theorem c4_get_model_status_amended_witness :
    (get_model_status hLen stP).2 = stP ∧
    (get_model_status hLen stP).1.models_available =
      stP.model_config.map (fun p => (p.1, (status_one hLen stP p.1 p.2).1)) :=
  ⟨(c4_get_model_status_amended hLen stP (by decide)).1,
   (c4_get_model_status_amended hLen stP (by decide)).2.1⟩

/-- C10.  On every loader state in which no configured artifact's file
exists on disk, `get_model_status` reports the overall `integrity_status`
as `"verified"` (the conjunction ranges over file-existing artifacts only,
hence is vacuously true), even though every per-artifact
`integrity_verified` flag — and every `file_exists` flag — is `false`. -/
theorem c10_status_verified_vacuously (h : ByteString → Digest)
    (st : LoaderState)
    (H : ∀ p ∈ st.model_config, dictGet st.files p.2.filename = none) :
    (get_model_status h st).1.integrity_status = "verified" ∧
    (∀ e ∈ (get_model_status h st).1.models_available,
      e.2.integrity_verified = false ∧ e.2.file_exists = false) := by
  have H2 : ∀ p ∈ st.model_config, p.2.expected_sha256 = none →
      dictGet st.files p.2.filename = none := fun p hp _ => H p hp
  have hfold := status_fold_frame h st H2 st.model_config
  have hent : ∀ e ∈ (status_fold h st st.model_config).1,
      e.2.integrity_verified = false ∧ e.2.file_exists = false := by
    rw [hfold.2]
    intro e he
    obtain ⟨p, hp, hpe⟩ := List.mem_map.mp he
    rw [status_one_no_file h st p.1 p.2 (H p hp)] at hpe
    rw [← hpe]
    exact ⟨rfl, rfl⟩
  constructor
  · have hall : (status_fold h st st.model_config).1.all
        (fun e => !e.2.file_exists || e.2.integrity_verified) = true := by
      rw [List.all_eq_true]
      intro e he
      rw [(hent e he).2]
      rfl
    simp [get_model_status, hall]
  · intro e he
    apply hent
    simpa [get_model_status] using he

/-- A loader state with one configured artifact and an empty models
directory. -/
def stE : LoaderState :=
  { files := [],
    model_config :=
      [("m", { filename := "f.pth", expected_sha256 := none, version := "1.0" })],
    loaded_models := [], mem_metadata := [], saved_metadata := [] }

/-- C10 witness: with one configured artifact and no file on disk, the
overall status is `"verified"` while the artifact's own flags are
`false`. -/
theorem c10_status_verified_vacuously_witness :
    (get_model_status hLen stE).1.integrity_status = "verified" ∧
    (∀ e ∈ (get_model_status hLen stE).1.models_available,
      e.2.integrity_verified = false ∧ e.2.file_exists = false) :=
  c10_status_verified_vacuously hLen stE (by decide)

/-! ## Helper lemmas for the Batch State Tracker -/

/-- Helper: the filtered list keeps the full length exactly when every
element satisfies the predicate. -/
theorem length_filter_eq_iff {α : Type} (p : α → Bool) (l : List α) :
    ((l.filter p).length = l.length) ↔ ∀ a ∈ l, p a = true := by
  constructor
  · intro hl
    exact List.filter_eq_self.mp ((List.filter_sublist l).eq_of_length hl)
  · intro hall
    rw [List.filter_eq_self.mpr hall]

/-- Helper: the filtered list is nonempty exactly when some element
satisfies the predicate. -/
theorem length_filter_pos_iff {α : Type} (p : α → Bool) (l : List α) :
    (0 < (l.filter p).length) ↔ ∃ a ∈ l, p a = true := by
  rw [List.length_pos]
  constructor
  · intro hne
    match hf : l.filter p with
    | [] => exact absurd hf hne
    | b :: r =>
      have hb : b ∈ l.filter p := by rw [hf]; exact List.mem_cons_self _ _
      have hm := List.mem_filter.mp hb
      exact ⟨b, hm.1, hm.2⟩
  · intro hex hnil
    obtain ⟨a, ha, hpa⟩ := hex
    have : a ∈ l.filter p := List.mem_filter.mpr ⟨ha, hpa⟩
    rw [hnil] at this
    cases this

/-- The maximum of a list of integers, zero on the empty list (only ever
used on nonempty lists). -/
def listMaxI : List Int → Int
  | [] => 0
  | x :: xs => xs.foldl max x

/-- The minimum of a list of integers, zero on the empty list (only ever
used on nonempty lists). -/
def listMinI : List Int → Int
  | [] => 0
  | x :: xs => xs.foldl min x

/-- Python's first-maximum `max(..., key=...)` attains exactly the
maximum of the keys. -/
theorem pick_max_by_key (key : ThermalScan → Int) :
    ∀ (xs : List ThermalScan) (x : ThermalScan),
      key (pick_max_by key x xs) = listMaxI ((x :: xs).map key) := by
  intro xs
  induction xs with
  | nil => intro x; rfl
  | cons b r ih =>
    intro x
    have hk : key (if key x < key b then b else x) = max (key x) (key b) := by
      by_cases hxb : key x < key b
      · simp [hxb, max_eq_right (le_of_lt hxb)]
      · simp [hxb, max_eq_left (le_of_not_lt hxb)]
    have hstep : pick_max_by key x (b :: r) =
        pick_max_by key (if key x < key b then b else x) r := rfl
    rw [hstep, ih]
    simp only [listMaxI, List.map_cons, List.foldl_cons, hk]

/-- Python's first-minimum `min(..., key=...)` attains exactly the
minimum of the keys. -/
theorem pick_min_by_key (key : ThermalScan → Int) :
    ∀ (xs : List ThermalScan) (x : ThermalScan),
      key (pick_min_by key x xs) = listMinI ((x :: xs).map key) := by
  intro xs
  induction xs with
  | nil => intro x; rfl
  | cons b r ih =>
    intro x
    have hk : key (if key b < key x then b else x) = min (key x) (key b) := by
      by_cases hbx : key b < key x
      · simp [hbx, min_eq_right (le_of_lt hbx)]
      · simp [hbx, min_eq_left (le_of_not_lt hbx)]
    have hstep : pick_min_by key x (b :: r) =
        pick_min_by key (if key b < key x then b else x) r := rfl
    rw [hstep, ih]
    simp only [listMinI, List.map_cons, List.foldl_cons, hk]

/-- The completion times read off the rows having one are exactly the
`filterMap` of the completion field. -/
theorem completed_times_eq (scans : List ThermalScan) :
    (scans.filter (fun s => s.processing_completed_at.isSome)).map
      (fun s => s.processing_completed_at.getD 0) =
    scans.filterMap (fun s => s.processing_completed_at) := by
  induction scans with
  | nil => rfl
  | cons a l ih =>
    cases ha : a.processing_completed_at with
    | none => simp [List.filter_cons, List.filterMap_cons, ha, ih]
    | some t => simp [List.filter_cons, List.filterMap_cons, ha, ih]

/-- The count-based status chain of the code equals the spec's
quantifier-based precedence chain. -/
theorem overall_status_spec (scans : List ThermalScan) :
    overall_status_of scans =
      if ∀ s ∈ scans, s.processing_status = "failed" then "failed"
      else if ∀ s ∈ scans, s.processing_status = "completed" then "completed"
      else if ∃ s ∈ scans, s.processing_status = "processing" then "processing"
      else if ∃ s ∈ scans, s.processing_status = "pending" then "pending"
      else "unknown" := by
  unfold overall_status_of
  have hall : ∀ (v : String),
      (((scans.filter (fun s => decide (s.processing_status = v))).length
        = scans.length) ↔ ∀ s ∈ scans, s.processing_status = v) := by
    intro v
    rw [length_filter_eq_iff]
    simp
  have hex : ∀ (v : String),
      ((0 < (scans.filter (fun s => decide (s.processing_status = v))).length) ↔
        ∃ s ∈ scans, s.processing_status = v) := by
    intro v
    rw [length_filter_pos_iff]
    simp
  simp only []
  by_cases h1 : ∀ s ∈ scans, s.processing_status = "failed"
  · rw [if_pos ((hall "failed").mpr h1), if_pos h1]
  · rw [if_neg (fun hc => h1 ((hall "failed").mp hc)), if_neg h1]
    by_cases h2 : ∀ s ∈ scans, s.processing_status = "completed"
    · rw [if_pos ((hall "completed").mpr h2), if_pos h2]
    · rw [if_neg (fun hc => h2 ((hall "completed").mp hc)), if_neg h2]
      by_cases h3 : ∃ s ∈ scans, s.processing_status = "processing"
      · rw [if_pos ((hex "processing").mpr h3), if_pos h3]
      · rw [if_neg (fun hc => h3 ((hex "processing").mp hc)), if_neg h3]
        by_cases h4 : ∃ s ∈ scans, s.processing_status = "pending"
        · rw [if_pos ((hex "pending").mpr h4), if_pos h4]
        · rw [if_neg (fun hc => h4 ((hex "pending").mp hc)), if_neg h4]

/-- The duration computation: absent when no row has completed, and equal
to (latest completion) − (earliest creation) when at least one row has a
completion timestamp. -/
theorem duration_of_spec (scans : List ThermalScan) :
    ((∀ s ∈ scans, s.processing_completed_at = none) →
      duration_of scans = none) ∧
    ((∃ s ∈ scans, s.processing_completed_at ≠ none) →
      duration_of scans = some (
        listMaxI (scans.filterMap (fun s => s.processing_completed_at)) -
        listMinI (scans.map (fun s => s.created_at)))) := by
  constructor
  · intro hnone
    cases hs : scans with
    | nil => rfl
    | cons x xs =>
      rw [hs] at hnone
      have hfil : (x :: xs).filter (fun s => s.processing_completed_at.isSome) = [] := by
        rw [List.filter_eq_nil_iff]
        intro a ha
        simp [hnone a ha]
      unfold duration_of
      rw [hfil]
  · intro hex
    obtain ⟨w, hw, hwc⟩ := hex
    cases hs : scans with
    | nil => rw [hs] at hw; cases hw
    | cons x xs =>
      rw [hs] at hw
      have hwfil : w ∈ (x :: xs).filter (fun s => s.processing_completed_at.isSome) := by
        refine List.mem_filter.mpr ⟨hw, ?_⟩
        cases hwc2 : w.processing_completed_at with
        | none => exact absurd hwc2 hwc
        | some t => rfl
      cases hfil : (x :: xs).filter (fun s => s.processing_completed_at.isSome) with
      | nil => rw [hfil] at hwfil; cases hwfil
      | cons y ys =>
        have hmax := pick_max_by_key (fun s => s.processing_completed_at.getD 0) ys y
        have hmin := pick_min_by_key (fun s => s.created_at) xs x
        simp only at hmax hmin
        have hbridge := completed_times_eq (x :: xs)
        rw [hfil] at hbridge
        unfold duration_of
        rw [hfil]
        show some ((pick_max_by (fun s => s.processing_completed_at.getD 0)
            y ys).processing_completed_at.getD 0
          - (pick_min_by (fun s => s.created_at) x xs).created_at) = _
        rw [hmax, hmin, hbridge]

/-! ## Helper lemmas for the Batch Ingestion Orchestrator -/

/-- Case analysis of one upload-loop iteration: either the outcome is not
`uploaded` (failed or skipped) and the scan table is untouched, or the
outcome is `uploaded` and exactly one new row — carrying the call's batch
id, the current sequence number, the content hash, the fresh id and the
`pending` status — is appended; the successful-count increment matches. -/
theorem process_one_cases (env : UploadEnv) (user : User) (batch_id : String)
    (ambient : Int) (notes : Option String) (substations : List Substation)
    (seq : Nat) (st : SysState) (f : UFile) :
    ((process_one env user batch_id ambient notes substations seq st f).1.scans
        = st.scans ∧
      (process_one env user batch_id ambient notes substations seq st f).2.1.status
        ≠ "uploaded" ∧
      (process_one env user batch_id ambient notes substations seq st f).2.2.1 = 0) ∨
    (∃ scan,
      (process_one env user batch_id ambient notes substations seq st f).1.scans
        = st.scans ++ [scan] ∧
      scan.batch_id = batch_id ∧ scan.batch_sequence = seq ∧
      scan.file_hash = env.fhash f.content ∧ scan.id = st.next_id ∧
      scan.processing_status = "pending" ∧
      st.scans.find? (fun s => decide (s.file_hash = env.fhash f.content)) = none ∧
      (process_one env user batch_id ambient notes substations seq st f).2.1.status
        = "uploaded" ∧
      (process_one env user batch_id ambient notes substations seq st f).2.2.1 = 1) := by
  by_cases hv : (validate_image_file env.validation f.filename f.content.length).1 = false
  · left
    simp [process_one, hv]
  · cases hfind : st.scans.find?
        (fun s => decide (s.file_hash = env.fhash f.content)) with
    | some existing =>
      left
      simp [process_one, hv, hfind]
    | none =>
      by_cases hsave : env.save_ok batch_id f.filename f.content
      · cases hmeta : env.extract_metadata f.content with
        | error e =>
          left
          simp [process_one, hv, hfind, save_uploaded_file, hsave, hmeta]
        | ok md =>
          right
          refine ⟨{ id := st.next_id,
                    original_filename := f.filename,
                    file_path := batch_id ++ "/" ++ f.filename,
                    file_size_bytes := f.content.length,
                    file_hash := env.fhash f.content,
                    batch_id := batch_id,
                    batch_sequence := seq,
                    substation_id := match md.gps with
                      | some (la, lo) =>
                        env.find_matching_substation la lo substations
                      | none => none,
                    uploaded_by := user.id,
                    ambient_temperature := ambient,
                    notes := notes,
                    processing_status := "pending",
                    created_at := env.now,
                    processing_completed_at := none },
            ?_, rfl, rfl, rfl, rfl, rfl, rfl, ?_, ?_⟩ <;>
            simp [process_one, hv, hfind, save_uploaded_file, hsave, hmeta]
      · left
        simp [process_one, hv, hfind, save_uploaded_file, hsave]

/-- The upload loop only ever appends scan rows; the appended rows all
carry the call's batch id and the `pending` status, their sequence numbers
are strictly increasing and drawn from the window `seq ≤ n < seq + files`,
the successful count equals the number of appended rows, and when every
iterated file produced a row the sequence numbers are exactly the
contiguous range starting at `seq`. -/
theorem process_files_records (env : UploadEnv) (user : User)
    (batch_id : String) (ambient : Int) (notes : Option String)
    (substations : List Substation) :
    ∀ (files : List UFile) (seq : Nat) (st : SysState),
      ∃ new,
        (process_files env user batch_id ambient notes substations
          seq st files).1.scans = st.scans ++ new ∧
        (∀ s ∈ new, s.batch_id = batch_id ∧ s.processing_status = "pending" ∧
          seq ≤ s.batch_sequence ∧ s.batch_sequence < seq + files.length) ∧
        List.Pairwise (fun a b => a.batch_sequence < b.batch_sequence) new ∧
        (process_files env user batch_id ambient notes substations
          seq st files).2.1 = new.length ∧
        new.length ≤ files.length ∧
        (new.length = files.length →
          new.map (fun s => s.batch_sequence) = List.range' seq files.length) := by
  intro files
  induction files with
  | nil =>
    intro seq st
    exact ⟨[], by simp [process_files], by simp, List.Pairwise.nil,
      by simp [process_files], by simp, by simp [process_files]⟩
  | cons f rest ih =>
    intro seq st
    obtain ⟨new1, hsc1, hmem1, hpw1, hcnt1, hle1, hrange1⟩ :=
      ih (seq + 1) (process_one env user batch_id ambient notes substations
        seq st f).1
    have hcons : process_files env user batch_id ambient notes substations
        seq st (f :: rest) =
      ((process_files env user batch_id ambient notes substations (seq + 1)
          (process_one env user batch_id ambient notes substations seq st f).1
          rest).1,
       (process_one env user batch_id ambient notes substations seq st f).2.2.1 +
        (process_files env user batch_id ambient notes substations (seq + 1)
          (process_one env user batch_id ambient notes substations seq st f).1
          rest).2.1,
       (process_one env user batch_id ambient notes substations seq st f).2.2.2 +
        (process_files env user batch_id ambient notes substations (seq + 1)
          (process_one env user batch_id ambient notes substations seq st f).1
          rest).2.2.1,
       (process_one env user batch_id ambient notes substations seq st f).2.1 ::
        (process_files env user batch_id ambient notes substations (seq + 1)
          (process_one env user batch_id ambient notes substations seq st f).1
          rest).2.2.2) := rfl
    cases process_one_cases env user batch_id ambient notes substations
        seq st f with
    | inl hl =>
      obtain ⟨hsc0, _, hds0⟩ := hl
      refine ⟨new1, ?_, ?_, hpw1, ?_, ?_, ?_⟩
      · rw [hcons]
        simp only
        rw [hsc1, hsc0]
      · intro s hs
        obtain ⟨ha, hb, hc, hd⟩ := hmem1 s hs
        exact ⟨ha, hb, by omega, by simp; omega⟩
      · rw [hcons]
        simp only
        rw [hds0, hcnt1]
        omega
      · simp
        omega
      · intro hlen
        simp at hlen
        omega
    | inr hr =>
      obtain ⟨scan, hsc0, hbid, hseq, _, _, hstat, _, _, hds0⟩ := hr
      refine ⟨scan :: new1, ?_, ?_, ?_, ?_, ?_, ?_⟩
      · rw [hcons]
        simp only
        rw [hsc1, hsc0]
        simp
      · intro s hs
        cases hs with
        | head =>
          exact ⟨hbid, hstat, by omega, by simp; omega⟩
        | tail _ hs1 =>
          obtain ⟨ha, hb, hc, hd⟩ := hmem1 s hs1
          exact ⟨ha, hb, by omega, by simp; omega⟩
      · refine List.Pairwise.cons ?_ hpw1
        intro b hb
        have := (hmem1 b hb).2.2.1
        omega
      · rw [hcons]
        simp only
        rw [hds0, hcnt1]
        simp only [List.length_cons]
        omega
      · simp
        omega
      · intro hlen
        simp at hlen
        have hmap1 := hrange1 hlen
        simp only [List.map_cons, hseq, hmap1, List.length_cons]
        rw [List.range'_succ seq rest.length 1]

/-- The upload loop preserves global uniqueness of content hashes: a row
is appended only when the duplicate lookup found no row with its hash. -/
theorem process_files_nodup (env : UploadEnv) (user : User)
    (batch_id : String) (ambient : Int) (notes : Option String)
    (substations : List Substation) :
    ∀ (files : List UFile) (seq : Nat) (st : SysState),
      (st.scans.map (fun s => s.file_hash)).Nodup →
      ((process_files env user batch_id ambient notes substations
        seq st files).1.scans.map (fun s => s.file_hash)).Nodup := by
  intro files
  induction files with
  | nil =>
    intro seq st hnd
    simpa [process_files] using hnd
  | cons f rest ih =>
    intro seq st hnd
    have hcons : (process_files env user batch_id ambient notes substations
        seq st (f :: rest)).1 =
      (process_files env user batch_id ambient notes substations (seq + 1)
        (process_one env user batch_id ambient notes substations seq st f).1
        rest).1 := rfl
    rw [hcons]
    apply ih
    cases process_one_cases env user batch_id ambient notes substations
        seq st f with
    | inl hl =>
      rw [hl.1]
      exact hnd
    | inr hr =>
      obtain ⟨scan, hsc, _, _, hhash, _, _, hfind, _, _⟩ := hr
      have hnot : ∀ x ∈ st.scans, ¬ x.file_hash = env.fhash f.content := by
        intro x hx
        have := List.find?_eq_none.mp hfind x hx
        simpa using this
      rw [hsc, List.map_append, List.nodup_append]
      refine ⟨hnd, by simp, ?_⟩
      intro a ha hmem
      obtain ⟨x, hx, hax⟩ := List.mem_map.mp ha
      simp only [List.map_cons, List.map_nil, List.mem_singleton] at hmem
      apply hnot x hx
      rw [hax, hmem, hhash]

/-! ## Claim theorems: Batch Ingestion and Tracking -/

/-- C5.  Content-hash deduplication.  Part (i): if the scan table has
globally unique content hashes, then it still has them after any ingestion
call — two byte-identical uploads can never both persist, within one batch
(each file's commit is visible to the following files of the same call) or
across batches.  Part (ii): a file that passes validation and whose
content hash already has a record is reported `skipped` with the first
existing record's id, appends no record, stores no file, and increments
neither the successful nor the failed count. -/
theorem c5_dedup_exactly_one_record :
    (∀ (env : UploadEnv) (st : SysState) (files : List UFile) (user : User)
        (ambient : Int) (notes : Option String),
      (st.scans.map (fun s => s.file_hash)).Nodup →
      (((upload_thermal_images env st files user ambient notes).2).scans.map
        (fun s => s.file_hash)).Nodup) ∧
    (∀ (env : UploadEnv) (user : User) (batch_id : String) (ambient : Int)
        (notes : Option String) (substations : List Substation) (seq : Nat)
        (st : SysState) (f : UFile) (existing : ThermalScan),
      (validate_image_file env.validation f.filename f.content.length).1 = true →
      st.scans.find? (fun s => decide (s.file_hash = env.fhash f.content))
        = some existing →
      process_one env user batch_id ambient notes substations seq st f =
        (st, ⟨f.filename, "skipped", "Duplicate file already processed",
          some existing.id⟩, 0, 0)) := by
  constructor
  · intro env st files user ambient notes hnd
    unfold upload_thermal_images
    by_cases he : files.isEmpty = true
    · simp [he]
      exact hnd
    · by_cases hl : 5000 < files.length
      · simp [he, hl]
        exact hnd
      · simp [he, hl]
        exact process_files_nodup env user env.create_batch_id ambient notes
          (st.substations.filter (fun s => s.is_active)) files 1 st hnd
  · intro env user batch_id ambient notes substations seq st f existing hval hfind
    simp [process_one, hval, hfind]

/-- A scan row already persisted under an earlier batch, whose content
hash is the digest of the two-byte content `[9, 9]`. -/
def rec0 : ThermalScan :=
  { id := 5, original_filename := "a.jpg", file_path := "B0/a.jpg",
    file_size_bytes := 2, file_hash := 2, batch_id := "B0",
    batch_sequence := 1, substation_id := none, uploaded_by := 2,
    ambient_temperature := 34, notes := none,
    processing_status := "pending", created_at := 0,
    processing_completed_at := none }

/-- Upload environment for the concrete witnesses: `.jpg` allowed up to
100 bytes, the byte-count digest, storage and metadata extraction
succeeding, no substation match. -/
def envD : UploadEnv :=
  { validation := { allowed_image_types := [".jpg"], max_file_size := 100 },
    fhash := hLen,
    save_ok := fun _ _ _ => true,
    extract_metadata := fun _ => .ok { gps := none },
    find_matching_substation := fun _ _ _ => none,
    create_batch_id := "B1",
    now := 0 }

/-- A requester without blanket view privilege. -/
def userD : User := { id := 1, username := "u", can_view_all_data := false }

/-- The empty persistent state. -/
def st0 : SysState :=
  { scans := [], next_id := 1, stored_files := [], substations := [] }

/-- The persistent state holding exactly the earlier row `rec0`. -/
def stD : SysState :=
  { scans := [rec0], next_id := 6, stored_files := [], substations := [] }

/-- C5 witness: uploading a file byte-identical to `rec0`'s content is
reported `skipped` with `rec0`'s id and changes nothing; and hash
uniqueness is preserved by the call. -/
theorem c5_dedup_exactly_one_record_witness :
    (((upload_thermal_images envD stD
        [{ filename := "c.jpg", content := [9, 9] }] userD 34 none).2).scans.map
      (fun s => s.file_hash)).Nodup ∧
    process_one envD userD "B1" 34 none [] 1 stD
        { filename := "c.jpg", content := [9, 9] } =
      (stD, ⟨"c.jpg", "skipped", "Duplicate file already processed",
        some 5⟩, 0, 0) := by
  constructor
  · exact c5_dedup_exactly_one_record.1 envD stD
      [{ filename := "c.jpg", content := [9, 9] }] userD 34 none (by decide)
  · exact c5_dedup_exactly_one_record.2 envD userD "B1" 34 none [] 1 stD
      { filename := "c.jpg", content := [9, 9] } rec0 rfl rfl

/-- C7 counterexample: a two-file batch whose first file fails validation
(`.txt` extension).  Both files are iterated (M = 2), but the single
persisted record carries sequence number 2, so the persisted sequence
numbers are not the contiguous range 1..M. -/
theorem c7_sequence_counterexample :
    ((upload_thermal_images envD st0
        [{ filename := "a.txt", content := [1] },
         { filename := "b.jpg", content := [2, 2] }] userD 34 none).2.scans.map
      (fun s => s.batch_sequence)) = [2] ∧
    List.range' 1 2 = [1, 2] ∧
    ¬ ((upload_thermal_images envD st0
        [{ filename := "a.txt", content := [1] },
         { filename := "b.jpg", content := [2, 2] }] userD 34 none).2.scans.map
      (fun s => s.batch_sequence)) = List.range' 1 2 := by
  refine ⟨by decide, rfl, by decide⟩

/-- C7 (amended).  For every ingestion call that passes the pre-loop
checks, the running counter starts at 1 and advances once per iterated
file, so the records persisted by the call carry sequence numbers that are
strictly increasing in submission order and drawn from 1..M (M = number of
files iterated); they form the full contiguous range 1..M exactly when
every iterated file produced a record (none failed or was skipped), i.e.
when the reported successful count equals M. -/
theorem c7_sequence_amended (env : UploadEnv) (st : SysState)
    (files : List UFile) (user : User) (ambient : Int) (notes : Option String)
    (hne : files ≠ []) (hlen : files.length ≤ 5000) :
    ∃ new,
      (upload_thermal_images env st files user ambient notes).2.scans
        = st.scans ++ new ∧
      (∀ s ∈ new, s.batch_id = env.create_batch_id ∧
        1 ≤ s.batch_sequence ∧ s.batch_sequence ≤ files.length) ∧
      List.Pairwise (fun a b => a.batch_sequence < b.batch_sequence) new ∧
      ((upload_thermal_images env st files user ambient notes).1.map
        (fun p => p.1.successful_uploads) = .ok new.length) ∧
      (new.length = files.length →
        new.map (fun s => s.batch_sequence) = List.range' 1 files.length) := by
  have hee : files.isEmpty = false := by
    cases files with
    | nil => exact absurd rfl hne
    | cons a l => rfl
  have hl5 : ¬ 5000 < files.length := by omega
  obtain ⟨new, h1, h2, h3, h4, h5, h6⟩ :=
    process_files_records env user env.create_batch_id ambient notes
      (st.substations.filter (fun s => s.is_active)) files 1 st
  refine ⟨new, ?_, ?_, h3, ?_, h6⟩
  · unfold upload_thermal_images
    simp [hee, hl5]
    exact h1
  · intro s hs
    obtain ⟨ha, _, hc, hd⟩ := h2 s hs
    exact ⟨ha, hc, by omega⟩
  · unfold upload_thermal_images
    simp [hee, hl5, Except.map]
    exact h4

/-- C7 witness: the amended sequence-number property instantiated on a
concrete two-file batch. -/
theorem c7_sequence_amended_witness :
    ∃ new,
      (upload_thermal_images envD st0
        [{ filename := "a.txt", content := [1] },
         { filename := "b.jpg", content := [2, 2] }] userD 34 none).2.scans
        = st0.scans ++ new ∧
      (∀ s ∈ new, s.batch_id = envD.create_batch_id ∧
        1 ≤ s.batch_sequence ∧ s.batch_sequence ≤ 2) ∧
      List.Pairwise (fun a b => a.batch_sequence < b.batch_sequence) new ∧
      ((upload_thermal_images envD st0
        [{ filename := "a.txt", content := [1] },
         { filename := "b.jpg", content := [2, 2] }] userD 34 none).1.map
        (fun p => p.1.successful_uploads) = .ok new.length) ∧
      (new.length = 2 →
        new.map (fun s => s.batch_sequence) = List.range' 1 2) :=
  c7_sequence_amended envD st0
    [{ filename := "a.txt", content := [1] },
     { filename := "b.jpg", content := [2, 2] }] userD 34 none
    (by decide) (by decide)

/-- C8.  Request-shape and per-file error handling: an empty file list
and a file count above 5000 are each rejected with a 400 before any
processing, leaving the persistent state (records, files, batch-id
allocation) untouched; every call only ever appends scan rows (records
already committed for earlier files are never rolled back); a per-file
storage error on a validated, non-duplicate file is caught and converted
into a `failed` outcome for that file only, with the loop continuing on
the remaining files from the same state; and a per-file
metadata-extraction error is likewise caught and converted into a
`failed` outcome for that file only — no scan row is created (only the
already-saved file remains in storage) and the loop continues on the
remaining files. -/
theorem c8_error_handling :
    (∀ (env : UploadEnv) (st : SysState) (user : User) (ambient : Int)
        (notes : Option String),
      upload_thermal_images env st [] user ambient notes =
        (.error ⟨400, "No files provided"⟩, st)) ∧
    (∀ (env : UploadEnv) (st : SysState) (files : List UFile) (user : User)
        (ambient : Int) (notes : Option String),
      5000 < files.length →
      upload_thermal_images env st files user ambient notes =
        (.error ⟨400, "Maximum 5000 files allowed per batch"⟩, st)) ∧
    (∀ (env : UploadEnv) (st : SysState) (files : List UFile) (user : User)
        (ambient : Int) (notes : Option String),
      ∃ new, (upload_thermal_images env st files user ambient notes).2.scans
        = st.scans ++ new) ∧
    (∀ (env : UploadEnv) (user : User) (batch_id : String) (ambient : Int)
        (notes : Option String) (substations : List Substation) (seq : Nat)
        (st : SysState) (f : UFile) (rest : List UFile),
      (validate_image_file env.validation f.filename f.content.length).1 = true →
      st.scans.find? (fun s => decide (s.file_hash = env.fhash f.content))
        = none →
      env.save_ok batch_id f.filename f.content = false →
      process_files env user batch_id ambient notes substations seq st
          (f :: rest) =
        ((process_files env user batch_id ambient notes substations (seq + 1)
            st rest).1,
         (process_files env user batch_id ambient notes substations (seq + 1)
            st rest).2.1,
         1 + (process_files env user batch_id ambient notes substations (seq + 1)
            st rest).2.2.1,
         ⟨f.filename, "failed", "Processing error: storage failure", none⟩ ::
           (process_files env user batch_id ambient notes substations (seq + 1)
            st rest).2.2.2)) ∧
    (∀ (env : UploadEnv) (user : User) (batch_id : String) (ambient : Int)
        (notes : Option String) (substations : List Substation) (seq : Nat)
        (st : SysState) (f : UFile) (rest : List UFile) (e : String),
      (validate_image_file env.validation f.filename f.content.length).1 = true →
      st.scans.find? (fun s => decide (s.file_hash = env.fhash f.content))
        = none →
      env.save_ok batch_id f.filename f.content = true →
      env.extract_metadata f.content = .error e →
      process_files env user batch_id ambient notes substations seq st
          (f :: rest) =
        ((process_files env user batch_id ambient notes substations (seq + 1)
            { st with stored_files := st.stored_files ++
              [(batch_id, batch_id ++ "/" ++ f.filename, f.content)] }
            rest).1,
         (process_files env user batch_id ambient notes substations (seq + 1)
            { st with stored_files := st.stored_files ++
              [(batch_id, batch_id ++ "/" ++ f.filename, f.content)] }
            rest).2.1,
         1 + (process_files env user batch_id ambient notes substations (seq + 1)
            { st with stored_files := st.stored_files ++
              [(batch_id, batch_id ++ "/" ++ f.filename, f.content)] }
            rest).2.2.1,
         ⟨f.filename, "failed", "Processing error: " ++ e, none⟩ ::
           (process_files env user batch_id ambient notes substations (seq + 1)
            { st with stored_files := st.stored_files ++
              [(batch_id, batch_id ++ "/" ++ f.filename, f.content)] }
            rest).2.2.2)) := by
  refine ⟨?_, ?_, ?_, ?_, ?_⟩
  · intro env st user ambient notes
    rfl
  · intro env st files user ambient notes hl
    cases files with
    | nil => simp at hl
    | cons a l =>
      unfold upload_thermal_images
      simp only [List.isEmpty_cons, Bool.false_eq_true, if_false]
      rw [if_pos hl]
  · intro env st files user ambient notes
    unfold upload_thermal_images
    by_cases he : files.isEmpty = true
    · exact ⟨[], by simp [he]⟩
    · by_cases hl : 5000 < files.length
      · exact ⟨[], by simp [he, hl]⟩
      · obtain ⟨new, h1, _⟩ :=
          process_files_records env user env.create_batch_id ambient notes
            (st.substations.filter (fun s => s.is_active)) files 1 st
        refine ⟨new, ?_⟩
        simp [he, hl]
        exact h1
  · intro env user batch_id ambient notes substations seq st f rest
      hval hfind hsave
    have hone : process_one env user batch_id ambient notes substations
        seq st f =
      (st, ⟨f.filename, "failed", "Processing error: storage failure", none⟩,
        0, 1) := by
      simp [process_one, hval, hfind, save_uploaded_file, hsave]
    have hcons : process_files env user batch_id ambient notes substations
        seq st (f :: rest) =
      ((process_files env user batch_id ambient notes substations (seq + 1)
          (process_one env user batch_id ambient notes substations seq st f).1
          rest).1,
       (process_one env user batch_id ambient notes substations seq st f).2.2.1 +
        (process_files env user batch_id ambient notes substations (seq + 1)
          (process_one env user batch_id ambient notes substations seq st f).1
          rest).2.1,
       (process_one env user batch_id ambient notes substations seq st f).2.2.2 +
        (process_files env user batch_id ambient notes substations (seq + 1)
          (process_one env user batch_id ambient notes substations seq st f).1
          rest).2.2.1,
       (process_one env user batch_id ambient notes substations seq st f).2.1 ::
        (process_files env user batch_id ambient notes substations (seq + 1)
          (process_one env user batch_id ambient notes substations seq st f).1
          rest).2.2.2) := rfl
    rw [hcons, hone]
    simp
  · intro env user batch_id ambient notes substations seq st f rest e
      hval hfind hsave hmeta
    have hone : process_one env user batch_id ambient notes substations
        seq st f =
      ({ st with stored_files := st.stored_files ++
          [(batch_id, batch_id ++ "/" ++ f.filename, f.content)] },
       ⟨f.filename, "failed", "Processing error: " ++ e, none⟩, 0, 1) := by
      simp [process_one, hval, hfind, save_uploaded_file, hsave, hmeta]
    have hcons : process_files env user batch_id ambient notes substations
        seq st (f :: rest) =
      ((process_files env user batch_id ambient notes substations (seq + 1)
          (process_one env user batch_id ambient notes substations seq st f).1
          rest).1,
       (process_one env user batch_id ambient notes substations seq st f).2.2.1 +
        (process_files env user batch_id ambient notes substations (seq + 1)
          (process_one env user batch_id ambient notes substations seq st f).1
          rest).2.1,
       (process_one env user batch_id ambient notes substations seq st f).2.2.2 +
        (process_files env user batch_id ambient notes substations (seq + 1)
          (process_one env user batch_id ambient notes substations seq st f).1
          rest).2.2.1,
       (process_one env user batch_id ambient notes substations seq st f).2.1 ::
        (process_files env user batch_id ambient notes substations (seq + 1)
          (process_one env user batch_id ambient notes substations seq st f).1
          rest).2.2.2) := rfl
    rw [hcons, hone]
    simp

/-- The 5001-file list exceeding the configured ceiling. -/
def files5001 : List UFile :=
  List.replicate 5001 { filename := "a.jpg", content := [1] }

/-- The witness environment whose storage provider always fails. -/
def envF : UploadEnv :=
  { envD with save_ok := fun _ _ _ => false }

/-- The witness environment whose metadata extractor always raises. -/
def envM : UploadEnv :=
  { envD with extract_metadata := fun _ => .error "bad exif" }

/-- C8 witness: a 5001-file batch is rejected with a 400 and no state
change; a storage failure on a single validated file yields exactly one
`failed` outcome with the loop completing; and a metadata-extraction
failure on a single validated file likewise yields one `failed` outcome,
no scan row, and only the saved file in storage. -/
theorem c8_error_handling_witness :
    upload_thermal_images envD st0 files5001 userD 34 none =
      (.error ⟨400, "Maximum 5000 files allowed per batch"⟩, st0) ∧
    process_files envF userD "B1" 34 none [] 1 st0
        [{ filename := "a.jpg", content := [1] }] =
      (st0, 0, 1,
        [⟨"a.jpg", "failed", "Processing error: storage failure", none⟩]) ∧
    process_files envM userD "B1" 34 none [] 1 st0
        [{ filename := "a.jpg", content := [1] }] =
      ({ st0 with stored_files := [("B1", "B1/a.jpg", [1])] }, 0, 1,
        [⟨"a.jpg", "failed", "Processing error: bad exif", none⟩]) := by
  refine ⟨?_, ?_, ?_⟩
  · exact c8_error_handling.2.1 envD st0 files5001 userD 34 none
      (by simp only [files5001, List.length_replicate]; omega)
  · have hd := c8_error_handling.2.2.2.1 envF userD "B1" 34 none [] 1 st0
      { filename := "a.jpg", content := [1] } [] rfl rfl rfl
    simpa using hd
  · have hm := c8_error_handling.2.2.2.2 envM userD "B1" 34 none [] 1 st0
      { filename := "a.jpg", content := [1] } [] "bad exif" rfl rfl rfl rfl
    simpa using hm

/-- C9.  Batch access control and missing batches: a requester without
blanket view privilege gets Forbidden from the status and file-listing
queries on a nonempty batch containing none of their own uploads, and
gets the data when at least one of their own uploads is present; a batch
id matching zero records yields Not-Found from status, listing, and
deletion alike, with deletion leaving the state untouched. -/
theorem c9_access_control_and_not_found (st : SysState) (batch_id : String)
    (user : User) (scans : List ThermalScan)
    (hscans : scans = st.scans.filter (fun s => decide (s.batch_id = batch_id))) :
    (user.can_view_all_data = false → scans ≠ [] →
      (∀ s ∈ scans, s.uploaded_by ≠ user.id) →
      get_batch_status st batch_id user =
        .error ⟨403, "Access denied to this batch"⟩ ∧
      get_batch_files st batch_id user =
        .error ⟨403, "Access denied to this batch"⟩) ∧
    (user.can_view_all_data = false →
      (∃ s ∈ scans, s.uploaded_by = user.id) →
      (∃ r, get_batch_status st batch_id user = .ok r) ∧
      (∃ l, get_batch_files st batch_id user = .ok l)) ∧
    (scans = [] →
      get_batch_status st batch_id user = .error ⟨404, "Batch not found"⟩ ∧
      get_batch_files st batch_id user = .error ⟨404, "Batch not found"⟩ ∧
      delete_batch st batch_id = (.error ⟨404, "Batch not found"⟩, st)) := by
  refine ⟨?_, ?_, ?_⟩
  · intro hview hne hnot
    have hemp : (st.scans.filter
        (fun s => decide (s.batch_id = batch_id))).isEmpty = false := by
      rw [← hscans]
      cases hq : scans with
      | nil => exact absurd hq hne
      | cons a l => rfl
    have hany : (st.scans.filter
        (fun s => decide (s.batch_id = batch_id))).any
        (fun s => decide (s.uploaded_by = user.id)) = false := by
      rw [← hscans]
      rw [List.any_eq_false]
      intro x hx
      simp [hnot x hx]
    constructor
    · unfold get_batch_status
      simp [hemp, hany, hview]
    · unfold get_batch_files
      simp [hemp, hany, hview]
  · intro hview hex
    obtain ⟨w, hw, hwid⟩ := hex
    have hemp : (st.scans.filter
        (fun s => decide (s.batch_id = batch_id))).isEmpty = false := by
      rw [← hscans]
      cases hq : scans with
      | nil => rw [hq] at hw; cases hw
      | cons a l => rfl
    have hany : (st.scans.filter
        (fun s => decide (s.batch_id = batch_id))).any
        (fun s => decide (s.uploaded_by = user.id)) = true := by
      rw [← hscans]
      rw [List.any_eq_true]
      exact ⟨w, hw, by simp [hwid]⟩
    constructor
    · unfold get_batch_status
      rw [if_neg (by simp [hemp]), if_neg (by simp [hany])]
      exact ⟨_, rfl⟩
    · unfold get_batch_files
      rw [if_neg (by simp [hemp]), if_neg (by simp [hany])]
      exact ⟨_, rfl⟩
  · intro hnil
    have hfil : st.scans.filter (fun s => decide (s.batch_id = batch_id)) = [] :=
      hscans.symm.trans hnil
    refine ⟨?_, ?_, ?_⟩
    · unfold get_batch_status
      simp [hfil]
    · unfold get_batch_files
      simp [hfil]
    · unfold delete_batch
      simp [hfil]

/-- A scan row of batch `"B0"` uploaded by user 2 (not the witness
requester). -/
def recA : ThermalScan :=
  { id := 1, original_filename := "a.jpg", file_path := "B0/a.jpg",
    file_size_bytes := 2, file_hash := 11, batch_id := "B0",
    batch_sequence := 1, substation_id := none, uploaded_by := 2,
    ambient_temperature := 34, notes := none,
    processing_status := "pending", created_at := 0,
    processing_completed_at := none }

/-- State holding exactly the foreign row `recA`. -/
def stA : SysState :=
  { scans := [recA], next_id := 2, stored_files := [], substations := [] }

/-- C9 witness: requester 1 (no blanket privilege) is Forbidden on batch
`"B0"` (owned by user 2), and batch `"ZZ"` (zero records) yields
Not-Found from status and from deletion, the latter leaving the state
untouched. -/
theorem c9_access_control_and_not_found_witness :
    get_batch_status stA "B0" userD =
      .error ⟨403, "Access denied to this batch"⟩ ∧
    get_batch_files stA "B0" userD =
      .error ⟨403, "Access denied to this batch"⟩ ∧
    get_batch_status stA "ZZ" userD = .error ⟨404, "Batch not found"⟩ ∧
    delete_batch stA "ZZ" = (.error ⟨404, "Batch not found"⟩, stA) := by
  have h1 := (c9_access_control_and_not_found stA "B0" userD
    (stA.scans.filter (fun s => decide (s.batch_id = "B0"))) rfl).1
    rfl (by decide) (by decide)
  have h2 := (c9_access_control_and_not_found stA "ZZ" userD
    (stA.scans.filter (fun s => decide (s.batch_id = "ZZ"))) rfl).2.2
    (by decide)
  exact ⟨h1.1, h1.2, h2.1, h2.2.2⟩

/-- C6.  Batch status derivation: for every nonempty batch the overall
status follows the exact precedence (all failed ⇒ failed; all completed ⇒
completed; any processing ⇒ processing; any pending ⇒ pending; otherwise
unknown), and the processing duration — reported only when at least one
record has completed — equals the latest completion timestamp among the
completed records minus the earliest creation timestamp of the batch. -/
theorem c6_batch_status_derivation (st : SysState) (batch_id : String)
    (user : User) (scans : List ThermalScan)
    (hscans : scans = st.scans.filter (fun s => decide (s.batch_id = batch_id)))
    (hne : scans ≠ [])
    (hacc : user.can_view_all_data = true ∨
      ∃ s ∈ scans, s.uploaded_by = user.id) :
    ∃ bs, get_batch_status st batch_id user = .ok bs ∧
      bs.status =
        (if ∀ s ∈ scans, s.processing_status = "failed" then "failed"
         else if ∀ s ∈ scans, s.processing_status = "completed" then "completed"
         else if ∃ s ∈ scans, s.processing_status = "processing" then "processing"
         else if ∃ s ∈ scans, s.processing_status = "pending" then "pending"
         else "unknown") ∧
      ((∀ s ∈ scans, s.processing_completed_at = none) →
        bs.processing_duration = none) ∧
      ((∃ s ∈ scans, s.processing_completed_at ≠ none) →
        bs.processing_duration = some (
          listMaxI (scans.filterMap (fun s => s.processing_completed_at)) -
          listMinI (scans.map (fun s => s.created_at)))) := by
  have hemp : (st.scans.filter
      (fun s => decide (s.batch_id = batch_id))).isEmpty = false := by
    rw [← hscans]
    cases hq : scans with
    | nil => exact absurd hq hne
    | cons a l => rfl
  have hcond : ¬ (user.can_view_all_data = false ∧
      (st.scans.filter (fun s => decide (s.batch_id = batch_id))).any
        (fun s => decide (s.uploaded_by = user.id)) = false) := by
    cases hacc with
    | inl h =>
      intro hc
      rw [h] at hc
      cases hc.1
    | inr h =>
      intro hc
      obtain ⟨w, hw, hwid⟩ := h
      have : (st.scans.filter (fun s => decide (s.batch_id = batch_id))).any
          (fun s => decide (s.uploaded_by = user.id)) = true := by
        rw [← hscans]
        rw [List.any_eq_true]
        exact ⟨w, hw, by simp [hwid]⟩
      rw [this] at hc
      cases hc.2
  have hok : get_batch_status st batch_id user = .ok
      { batch_id := batch_id,
        total_images :=
          (st.scans.filter (fun s => decide (s.batch_id = batch_id))).length,
        processed_images :=
          ((st.scans.filter (fun s => decide (s.batch_id = batch_id))).filter
            (fun s => decide (s.processing_status = "completed"))).length,
        failed_images :=
          ((st.scans.filter (fun s => decide (s.batch_id = batch_id))).filter
            (fun s => decide (s.processing_status = "failed"))).length,
        status := overall_status_of
          (st.scans.filter (fun s => decide (s.batch_id = batch_id))),
        created_at :=
          (((st.scans.filter (fun s => decide (s.batch_id = batch_id))).head?).map
            (fun s => s.created_at)).getD 0,
        processing_duration := duration_of
          (st.scans.filter (fun s => decide (s.batch_id = batch_id))) } := by
    unfold get_batch_status
    rw [if_neg (by simp [hemp]), if_neg hcond]
  refine ⟨_, hok, ?_, ?_, ?_⟩
  · show overall_status_of (st.scans.filter
      (fun s => decide (s.batch_id = batch_id))) = _
    rw [← hscans]
    exact overall_status_spec scans
  · show (∀ s ∈ scans, s.processing_completed_at = none) →
      duration_of (st.scans.filter
        (fun s => decide (s.batch_id = batch_id))) = none
    rw [← hscans]
    exact (duration_of_spec scans).1
  · show (∃ s ∈ scans, s.processing_completed_at ≠ none) →
      duration_of (st.scans.filter
        (fun s => decide (s.batch_id = batch_id))) = some _
    rw [← hscans]
    exact (duration_of_spec scans).2

/-- A completed scan row of batch `"B"` owned by the witness requester. -/
def recC1 : ThermalScan :=
  { id := 1, original_filename := "a.jpg", file_path := "B/a.jpg",
    file_size_bytes := 2, file_hash := 21, batch_id := "B",
    batch_sequence := 1, substation_id := none, uploaded_by := 1,
    ambient_temperature := 34, notes := none,
    processing_status := "completed", created_at := 10,
    processing_completed_at := some 50 }

/-- A second completed scan row of batch `"B"`, created earlier and
completed later than the first. -/
def recC2 : ThermalScan :=
  { id := 2, original_filename := "b.jpg", file_path := "B/b.jpg",
    file_size_bytes := 2, file_hash := 22, batch_id := "B",
    batch_sequence := 2, substation_id := none, uploaded_by := 2,
    ambient_temperature := 34, notes := none,
    processing_status := "completed", created_at := 5,
    processing_completed_at := some 80 }

/-- State holding the two completed rows of batch `"B"`. -/
def stC : SysState :=
  { scans := [recC1, recC2], next_id := 3, stored_files := [],
    substations := [] }

/-- C6 witness: on a batch whose two records are both completed (created
at 10 and 5, completed at 50 and 80), the overall status is `completed`
and the duration is 80 − 5 = 75. -/
theorem c6_batch_status_derivation_witness :
    ∃ bs, get_batch_status stC "B" userD = .ok bs ∧
      bs.status = "completed" ∧ bs.processing_duration = some 75 := by
  obtain ⟨bs, hok, hstat, hdn, hds⟩ :=
    c6_batch_status_derivation stC "B" userD
      (stC.scans.filter (fun s => decide (s.batch_id = "B"))) rfl
      (by decide) (Or.inr (by decide))
  refine ⟨bs, hok, ?_, ?_⟩
  · rw [hstat]
    decide
  · rw [hds (by decide)]
    decide

end Thermo
